import Mathlib

/-!
Verification development for the AI-career-coach server-action layer.

The repository's core logic (spec §2) is a single reusable component:
response-shape normalization of a generative-text backend's reply,
markdown fence stripping plus JSON parsing, rate-limit classification,
retry-delay extraction, and a primary/fallback resilient invoker.

This file gives a shallow embedding of that logic.  JavaScript values
flowing through the untyped code are modelled by the inductive `Json`
below (JS `undefined` is modelled by `Option.none` at access points).
JS numbers are modelled by exact rationals `ℚ`: every numeric literal the
JSON grammar admits denotes a rational, and no claim under study depends
on IEEE-754 rounding.  Thrown JS exceptions are modelled by the
`Except JsErr` monad; `try`/`catch` becomes matching on the result.
-/

/-- A JS number as an exact unnormalized fraction `num / den`.  Values
built by the JSON parser and `parseFloat` always have `den = 10 ^ k > 0`;
keeping the fraction unnormalized lets the kernel evaluate concrete runs
(normalizing through `Nat.gcd` would block reduction). -/
structure JsNum where
  num : ℤ
  den : ℕ
deriving Repr, DecidableEq

/-- The rational a `JsNum` denotes. -/
def JsNum.toRat (x : JsNum) : ℚ := (x.num : ℚ) / (x.den : ℚ)

/-- JS `===` on numbers: value equality, by cross-multiplication. -/
def jsNumEq (a b : JsNum) : Bool :=
  a.num * (b.den : ℤ) == b.num * (a.den : ℤ)

/-- A whole number. -/
def jsInt (n : ℤ) : JsNum := ⟨n, 1⟩

/-- A JavaScript/JSON value.  Object fields are kept in insertion order;
the JSON parser below collapses duplicate keys last-wins, as `JSON.parse`
does. -/
inductive Json where
  | null
  | bool (b : Bool)
  | num (q : JsNum)
  | str (s : String)
  | arr (elems : List Json)
  | obj (fields : List (String × Json))
deriving Repr

/-- Errors a modelled JS computation can throw. -/
inductive JsErr where
  /-- A `TypeError`: property access or method call on `null`/a value lacking
  the method. -/
  | typeErr
  /-- A `SyntaxError` from `JSON.parse` (the spec's `InvalidJson`). -/
  | badJson
  /-- An `Error(msg)` thrown with `new` (e.g. the spec's `MalformedResponse`
  "AI returned no text"). -/
  | errObj (msg : String)
  /-- an arbitrary JS value rethrown (backend errors). -/
  | thrown (v : Json)
deriving Repr

/-- JS truthiness of a defined (non-`undefined`) value. -/
def jsTruthy : Json → Bool
  | .null => false
  | .bool b => b
  | .num q => !(q.num == 0)
  | .str s => !(s == "")
  | .arr _ => true
  | .obj _ => true

/-- First binding of `k` in an association list (objects built by the JSON
parser have no duplicate keys). -/
def lookupField : List (String × Json) → String → Option Json
  | [], _ => none
  | (k', v) :: rest, k => if k' == k then some v else lookupField rest k

/-- Property access `j.k` on a value known to be defined and non-null.
On non-objects it yields `undefined` (`none`), matching JS primitive
boxing; `null` receivers are handled separately where the source performs
a plain (non-optional) access, since those throw. -/
def jsGetJ : Json → String → Option Json
  | .obj kvs, k => lookupField kvs k
  | _, _ => none

/-- Optional-chaining access `o?.k`: `undefined` and `null` receivers
yield `undefined` instead of throwing. -/
def jsGet : Option Json → String → Option Json
  | none, _ => none
  | some .null, _ => none
  | some j, k => jsGetJ j k

/-- Optional-chaining index access `o?.[0]`.  On arrays this is the first
element; on strings the first character (JS string indexing); on objects
the property named "0". -/
def jsIdx0 : Option Json → Option Json
  | some (.arr xs) => xs.head?
  | some (.str s) => s.data.head?.map (fun c => Json.str (String.mk [c]))
  | some (.obj kvs) => lookupField kvs "0"
  | _ => none

/-- The character set removed by `String.prototype.trim` (ECMAScript
WhiteSpace ∪ LineTerminator). -/
def jsWsChar (c : Char) : Bool :=
  c.toNat == 9 || c.toNat == 10 || c.toNat == 11 || c.toNat == 12 ||
  c.toNat == 13 || c.toNat == 32 || c.toNat == 160 || c.toNat == 0x1680 ||
  (0x2000 ≤ c.toNat && c.toNat ≤ 0x200A) || c.toNat == 0x2028 ||
  c.toNat == 0x2029 || c.toNat == 0x202F || c.toNat == 0x205F ||
  c.toNat == 0x3000 || c.toNat == 0xFEFF

/-- JSON grammar whitespace (strictly smaller than the JS `trim` set). -/
def jsonWsChar (c : Char) : Bool :=
  c.toNat == 32 || c.toNat == 9 || c.toNat == 10 || c.toNat == 13

/-- Remove trailing JS whitespace. -/
def trimRightWs (l : List Char) : List Char :=
  (l.reverse.dropWhile jsWsChar).reverse

/-- Remove leading JS whitespace. -/
def trimLeftWs (l : List Char) : List Char :=
  l.dropWhile jsWsChar

/-- The JS `String.prototype.trim`, on character lists (leading then trailing;
the order does not matter for the result). -/
def jsTrimList (l : List Char) : List Char :=
  trimRightWs (trimLeftWs l)

/-- The JS `String.prototype.trim`. -/
def jsTrimStr (s : String) : String :=
  String.mk (jsTrimList s.data)

/-- Does `l` start with the pattern `pat`? -/
def listStartsWith : List Char → List Char → Bool
  | [], _ => true
  | _ :: _, [] => false
  | p :: ps, c :: cs => p == c && listStartsWith ps cs

/-- Does `l` contain `pat` as a contiguous run (`String.prototype.includes`)? -/
def listContainsPat (pat : List Char) : List Char → Bool
  | [] => listStartsWith pat []
  | l@(_ :: cs) => listStartsWith pat l || listContainsPat pat cs

/-- The JS `s.includes(pat)` for strings. -/
def strIncludes (s pat : String) : Bool :=
  listContainsPat pat.data s.data

/-- The backtick character (written via its code point). -/
def btick : Char := Char.ofNat 96

/-- Skip JSON whitespace. -/
def skipW (l : List Char) : List Char :=
  l.dropWhile jsonWsChar

/-- Value of a hex digit, if any. -/
def hexVal (c : Char) : Option ℕ :=
  if 48 ≤ c.toNat ∧ c.toNat ≤ 57 then some (c.toNat - 48)
  else if 97 ≤ c.toNat ∧ c.toNat ≤ 102 then some (c.toNat - 87)
  else if 65 ≤ c.toNat ∧ c.toNat ≤ 70 then some (c.toNat - 55)
  else none

/-- Natural number denoted by a digit run. -/
def natOfDigits (l : List Char) : ℕ :=
  l.foldl (fun a c => a * 10 + (c.toNat - 48)) 0

/-- Decode one escape sequence (the characters after the backslash),
returning the decoded character and the remaining input.  `\uXXXX`
surrogate pairs are combined; a lone surrogate (which Lean's `Char`
cannot carry) becomes U+FFFD — no claim under study depends on that
corner. -/
def pEscape : List Char → Option (Char × List Char)
  | [] => none
  | e :: r2 =>
    if e = '"' then some ('"', r2)
    else if e = '\\' then some ('\\', r2)
    else if e = '/' then some ('/', r2)
    else if e = 'b' then some (Char.ofNat 8, r2)
    else if e = 'f' then some (Char.ofNat 12, r2)
    else if e = 'n' then some ('\n', r2)
    else if e = 'r' then some ('\r', r2)
    else if e = 't' then some ('\t', r2)
    else if e = 'u' then
      match r2 with
      | h1 :: h2 :: h3 :: h4 :: r3 =>
        match hexVal h1, hexVal h2, hexVal h3, hexVal h4 with
        | some a, some b, some cv, some d =>
          let n := ((a * 16 + b) * 16 + cv) * 16 + d
          if 0xD800 ≤ n ∧ n ≤ 0xDBFF then
            match r3 with
            | '\\' :: 'u' :: g1 :: g2 :: g3 :: g4 :: r4 =>
              match hexVal g1, hexVal g2, hexVal g3, hexVal g4 with
              | some a2, some b2, some c2, some d2 =>
                let m := ((a2 * 16 + b2) * 16 + c2) * 16 + d2
                if 0xDC00 ≤ m ∧ m ≤ 0xDFFF then
                  some (Char.ofNat (0x10000 + (n - 0xD800) * 0x400 + (m - 0xDC00)), r4)
                else some (Char.ofNat 0xFFFD, r3)
              | _, _, _, _ => some (Char.ofNat 0xFFFD, r3)
            | _ => some (Char.ofNat 0xFFFD, r3)
          else if 0xDC00 ≤ n ∧ n ≤ 0xDFFF then
            some (Char.ofNat 0xFFFD, r3)
          else some (Char.ofNat n, r3)
        | _, _, _, _ => none
      | _ => none
    else none

/-- Parse the body of a JSON string literal (after the opening quote),
accumulating decoded characters.  The fuel only serves Lean's
termination; one unit is spent per consumed character, so callers pass
`length + 1` and the 0 case is unreachable. -/
def pStrAux : ℕ → List Char → List Char → Option (String × List Char)
  | 0, _, _ => none
  | _ + 1, [], _ => none
  | Nat.succ f, c :: r, acc =>
    if c = '"' then some (String.mk acc.reverse, r)
    else if c = '\\' then
      match pEscape r with
      | some (ch, r2) => pStrAux f r2 (ch :: acc)
      | none => none
    else if c.toNat < 32 then none
    else pStrAux f r (c :: acc)

/-- Parse a string literal body with adequate fuel. -/
def pString (r : List Char) : Option (String × List Char) :=
  pStrAux (r.length + 1) r []

/-- Parse a JSON number (strict `JSON.parse` grammar: optional minus, `0`
or a nonzero-led digit run, optional fraction, optional exponent).  The
exact value is returned as a decimal fraction. -/
def parseNumber (cs : List Char) : Option (JsNum × List Char) :=
  let signRest : Bool × List Char :=
    match cs with
    | '-' :: r => (true, r)
    | _ => (false, cs)
  let neg := signRest.1
  let afterSign := signRest.2
  let ipRest : Option (List Char × List Char) :=
    match afterSign with
    | '0' :: r => some (['0'], r)
    | c :: r =>
      if c.isDigit ∧ c ≠ '0' then
        some ((c :: r).takeWhile Char.isDigit, (c :: r).dropWhile Char.isDigit)
      else none
    | [] => none
  match ipRest with
  | none => none
  | some (ip, rest1) =>
    let fracRest : Option (List Char × List Char) :=
      match rest1 with
      | '.' :: r2 =>
        let f := r2.takeWhile Char.isDigit
        if f = [] then none else some (f, r2.dropWhile Char.isDigit)
      | _ => some ([], rest1)
    match fracRest with
    | none => none
    | some (f, rest2) =>
      let expRest : Option (ℤ × List Char) :=
        match rest2 with
        | 'e' :: r3 | 'E' :: r3 =>
          let sr : Bool × List Char :=
            match r3 with
            | '+' :: r4 => (false, r4)
            | '-' :: r4 => (true, r4)
            | _ => (false, r3)
          let ds := sr.2.takeWhile Char.isDigit
          if ds = [] then none
          else
            let e : ℤ := natOfDigits ds
            some (if sr.1 then -e else e, sr.2.dropWhile Char.isDigit)
        | _ => some (0, rest2)
      match expRest with
      | none => none
      | some (e, rest3) =>
        let m : ℤ := natOfDigits (ip ++ f)
        let m := if neg then -m else m
        let t : ℤ := e - f.length
        let v : JsNum := if 0 ≤ t then ⟨m * 10 ^ t.natAbs, 1⟩ else ⟨m, 10 ^ t.natAbs⟩
        some (v, rest3)

/-- Replace an existing binding (keeping its position) or append — the
`JSON.parse` duplicate-key rule. -/
def insertKey : List (String × Json) → String → Json → List (String × Json)
  | [], k, v => [(k, v)]
  | (k', v') :: rest, k, v =>
    if k' == k then (k', v) :: rest else (k', v') :: insertKey rest k v

mutual

/-- Parse one JSON value, dispatching on the first character after the
whitespace; fuel bounds the recursion depth (one unit of fuel is spent
per nested construct, and every spend follows consuming at least one
character, so `length + 1` fuel at top level never runs out). -/
def pValue : ℕ → List Char → Option (Json × List Char)
  | 0, _ => none
  | Nat.succ f, cs =>
    match skipW cs with
    | [] => none
    | c :: r =>
      if c = 'n' then
        if r.take 3 = ['u', 'l', 'l'] then some (.null, r.drop 3) else none
      else if c = 't' then
        if r.take 3 = ['r', 'u', 'e'] then some (.bool true, r.drop 3) else none
      else if c = 'f' then
        if r.take 4 = ['a', 'l', 's', 'e'] then some (.bool false, r.drop 4) else none
      else if c = '"' then (pString r).map (fun p => (.str p.1, p.2))
      else if c = '\x7b' then
        match skipW r with
        | '\x7d' :: r2 => some (.obj [], r2)
        | r2 => (pMembers f r2 []).map (fun p => (.obj p.1, p.2))
      else if c = '[' then
        match skipW r with
        | ']' :: r2 => some (.arr [], r2)
        | r2 => (pElems f r2 []).map (fun p => (.arr p.1, p.2))
      else if c = '-' ∨ c.isDigit then
        (parseNumber (c :: r)).map (fun p => (.num p.1, p.2))
      else none

/-- Parse `"key": value (, ...)* }`, accumulating fields. -/
def pMembers : ℕ → List Char → List (String × Json) →
    Option (List (String × Json) × List Char)
  | 0, _, _ => none
  | Nat.succ f, cs, acc =>
    match skipW cs with
    | '"' :: r =>
      match pString r with
      | none => none
      | some (k, r1) =>
        match skipW r1 with
        | ':' :: r2 =>
          match pValue f r2 with
          | none => none
          | some (v, r3) =>
            match skipW r3 with
            | ',' :: r4 => pMembers f r4 (insertKey acc k v)
            | '}' :: r4 => some (insertKey acc k v, r4)
            | _ => none
        | _ => none
    | _ => none

/-- Parse `value (, ...)* ]`, accumulating elements. -/
def pElems : ℕ → List Char → List Json → Option (List Json × List Char)
  | 0, _, _ => none
  | Nat.succ f, cs, acc =>
    match pValue f cs with
    | none => none
    | some (v, r) =>
      match skipW r with
      | ',' :: r2 => pElems f r2 (acc ++ [v])
      | ']' :: r2 => some (acc ++ [v], r2)
      | _ => none

end

/-- The JS `JSON.parse` on a character list: one value, with only whitespace
allowed around it; `none` models the thrown `SyntaxError`. -/
def jsonParseL (cs : List Char) : Option Json :=
  match pValue (cs.length + 1) cs with
  | some (v, rest) => if (skipW rest).isEmpty then some v else none
  | none => none

/-- The JS `JSON.parse` on strings. -/
def jsonParse (s : String) : Option Json :=
  jsonParseL s.data

/-- Decimal digit characters of a natural number. -/
def natDigitsStr (n : ℕ) : String := Nat.repr n

/-- Fractional digit run for `rem / den` when `den = 10 ^ k`: pad `rem`
with leading zeros to `k` digits, drop trailing zeros. -/
def fracDigits (k : ℕ) (rem : ℕ) : String :=
  let ds := natDigitsStr rem
  let padded := List.replicate (k - ds.length) '0' ++ ds.data
  String.mk ((padded.reverse.dropWhile (fun c => c == '0')).reverse)

/-- JS `String()` of a number.  Integers (the only numbers these code
paths ever stringify) print exactly as JS does; non-integer decimals
(always `den = 10 ^ k` here) print as `intPart.fracDigits` without
trailing zeros.  (True JS shortest-roundtrip float formatting differs on
exotica like `1e21`; no claim exercises those.) -/
def jsNumToString (x : JsNum) : String :=
  if x.den == 1 then
    (if x.num < 0 then "-" else "") ++ natDigitsStr x.num.natAbs
  else if x.den == 0 then "NaN"
  else
    let sign := if x.num < 0 then "-" else ""
    let a := x.num.natAbs
    let ip := a / x.den
    let rem := a % x.den
    if rem == 0 then sign ++ natDigitsStr ip
    else sign ++ natDigitsStr ip ++ "." ++ fracDigits (natDigitsStr (x.den - 1)).length rem

mutual

/-- JS `String(v)` conversion (ECMAScript ToString) for the values that
reach it in this codebase. -/
def jsToString : Json → String
  | .null => "null"
  | .bool true => "true"
  | .bool false => "false"
  | .num q => jsNumToString q
  | .str s => s
  | .arr xs => jsToStringElems xs
  | .obj _ => "[object Object]"

/-- The JS `Array.prototype.toString` = `join(",")`; `null` elements join as
the empty string. -/
def jsToStringElems : List Json → String
  | [] => ""
  | [.null] => ""
  | [x] => jsToString x
  | .null :: xs => "," ++ jsToStringElems xs
  | x :: xs => jsToString x ++ "," ++ jsToStringElems xs

end

/-- Escape one character for a JSON string literal. -/
def stringifyChar (c : Char) : String :=
  if c = '"' then "\\\""
  else if c = '\\' then "\\\\"
  else if c = '\n' then "\\n"
  else if c = '\r' then "\\r"
  else if c = '\t' then "\\t"
  else if c.toNat = 8 then "\\b"
  else if c.toNat = 12 then "\\f"
  else if c.toNat < 32 then
    "\\u00" ++ String.mk [Char.ofNat (if c.toNat / 16 < 10 then 48 + c.toNat / 16 else 87 + c.toNat / 16),
                          Char.ofNat (if c.toNat % 16 < 10 then 48 + c.toNat % 16 else 87 + c.toNat % 16)]
  else String.mk [c]

/-- A JSON string literal for `s`. -/
def stringifyStr (s : String) : String :=
  "\"" ++ String.join (s.data.map stringifyChar) ++ "\""

mutual

/-- The JS `JSON.stringify` (no replacer/indent), for defined values. -/
def jsStringify : Json → String
  | .null => "null"
  | .bool true => "true"
  | .bool false => "false"
  | .num q => jsNumToString q
  | .str s => stringifyStr s
  | .arr xs => "[" ++ jsStringifyElems xs ++ "]"
  | .obj kvs => "\x7b" ++ jsStringifyFields kvs ++ "\x7d"

/-- Array elements, comma separated. -/
def jsStringifyElems : List Json → String
  | [] => ""
  | [x] => jsStringify x
  | x :: xs => jsStringify x ++ "," ++ jsStringifyElems xs

/-- Object fields, comma separated, insertion order. -/
def jsStringifyFields : List (String × Json) → String
  | [] => ""
  | [(k, v)] => stringifyStr k ++ ":" ++ jsStringify v
  | (k, v) :: rest => stringifyStr k ++ ":" ++ jsStringify v ++ "," ++ jsStringifyFields rest

end

/-- Drop a leading literal `json` (the optional language tag the regex
`(?:json)?` consumes greedily). -/
def dropJsonTag (l : List Char) : List Char :=
  if l.take 4 = ['j', 's', 'o', 'n'] then l.drop 4 else l

/-- Drop one leading newline (the regex's optional `\n?`). -/
def dropNl : List Char → List Char
  | '\n' :: r => r
  | l => l

/-- Global replacement of `/```(?:json)?\n?/g` by the empty string
(`src/actions/dashboard.js` line 53): scan left to right; at each
position, if three backticks start here, consume them plus an optional
`json` tag plus an optional newline and emit nothing, else emit the
character.  The regex's optional groups are independent literals
followed by nothing, so greedy matching never backtracks and this scan
is exactly the regex's non-overlapping global replace.  Fuel is spent
once per consumed character; callers pass `length`. -/
def stripFuelDash : ℕ → List Char → List Char
  | 0, l => l
  | _ + 1, [] => []
  | Nat.succ f, c :: cs =>
    if c = btick ∧ cs.take 2 = [btick, btick] then
      stripFuelDash f (dropNl (dropJsonTag (cs.drop 2)))
    else
      c :: stripFuelDash f cs

/-- The dashboard fence stripper `text.replace(/```(?:json)?\n?/g, "")`. -/
def stripFencesDash (l : List Char) : List Char :=
  stripFuelDash l.length l

/-- Global replacement of `/```json|```/g` by the empty string
(`src/actions/interview.js` line 67): alternation tried in order, so a
literal `json` right after the backticks is consumed, a newline is not. -/
def stripFuelQuiz : ℕ → List Char → List Char
  | 0, l => l
  | _ + 1, [] => []
  | Nat.succ f, c :: cs =>
    if c = btick ∧ cs.take 2 = [btick, btick] then
      stripFuelQuiz f (dropJsonTag (cs.drop 2))
    else
      c :: stripFuelQuiz f cs

/-- The interview fence stripper `text.replace(/```json|```/g, "")`. -/
def stripFencesQuiz (l : List Char) : List Char :=
  stripFuelQuiz l.length l

/-- The dashboard `JsonExtractor`:
`JSON.parse(text.replace(/```(?:json)?\n?/g, "").trim())`
(`src/actions/dashboard.js` lines 53–54). -/
def jsonExtract (s : String) : Option Json :=
  jsonParseL (jsTrimList (stripFencesDash s.data))

/-- The decimal capture of `/([0-9]+(?:\.[0-9]+)?)s/` when it matches at
the start of `l`, with the rest unexamined.  Backtracking is trivially
resolved: taking fewer than the maximal digits leaves a digit as the next
character, which can match neither `.` nor `s`, so only the greedy runs
can succeed. -/
def retryTryAt (l : List Char) : Option (List Char) :=
  let d := l.takeWhile Char.isDigit
  if d = [] then none
  else
    match l.dropWhile Char.isDigit with
    | 's' :: _ => some d
    | '.' :: r2 =>
      let fr := r2.takeWhile Char.isDigit
      if fr = [] then none
      else
        match r2.dropWhile Char.isDigit with
        | 's' :: _ => some (d ++ '.' :: fr)
        | _ => none
    | _ => none

/-- Leftmost match of `/([0-9]+(?:\.[0-9]+)?)s/.exec`: try each start
position left to right and return capture group 1. -/
def retryExecL : List Char → Option (List Char)
  | [] => none
  | l@(_ :: cs) =>
    match retryTryAt l with
    | some g => some g
    | none => retryExecL cs

/-- Run `exec` on a string, returning `m[1]`. -/
def retryExec (s : String) : Option String :=
  (retryExecL s.data).map String.mk

/-- Numerator and denominator read off a captured decimal
(`digits` or `digits.digits`). -/
def decFrac (s : String) : ℤ × ℕ :=
  let ip := s.data.takeWhile Char.isDigit
  match s.data.dropWhile Char.isDigit with
  | '.' :: r =>
    let fr := r.takeWhile Char.isDigit
    (natOfDigits (ip ++ fr), 10 ^ fr.length)
  | _ => (natOfDigits ip, 1)

/-- The JS `parseFloat` restricted to the shapes the retry-delay regex can
capture (`digits` or `digits.digits`) — the only strings the source ever
passes it. -/
def parseFloatDec (s : String) : JsNum :=
  ⟨(decFrac s).1, (decFrac s).2⟩

/-- The JS `Math.ceil` on an exact fraction with positive denominator:
`⌈a / b⌉ = -⌊-a / b⌋`, computed with Euclidean (floor) division. -/
def jsCeil (x : JsNum) : ℤ :=
  -(-x.num / (x.den : ℤ))

/-- Multiply by 1000 (seconds to milliseconds). -/
def jsMul1000 (x : JsNum) : JsNum := ⟨x.num * 1000, x.den⟩

/-- The exact rational denoted by a captured decimal `digits(.digits)`. -/
def decimalRat (s : String) : ℚ :=
  ((decFrac s).1 : ℚ) / ((decFrac s).2 : ℚ)

/-- Is `s` exactly `digits` or `digits.digits` (a decimal number, claim
C5's retry-delay format)? -/
def isDecimalStr (s : String) : Bool :=
  let ip := s.data.takeWhile Char.isDigit
  if ip = [] then false
  else
    match s.data.dropWhile Char.isDigit with
    | [] => true
    | '.' :: r =>
      let fr := r.takeWhile Char.isDigit
      !fr.isEmpty && (r.dropWhile Char.isDigit).isEmpty
    | _ => false

/-- Is the value the JS `null`? -/
def isNullJ : Json → Bool
  | .null => true
  | _ => false

/-- One part's contribution to `parts.map((p) => p.text || "").join("")`
(the shape-3 branch of the response normalizer).  A `null` part throws
`TypeError` on the `p.text` access; a falsy `p.text` (absent, `null`,
`false`, `0`, `""`) contributes the empty string; a truthy non-string is
coerced by `join`. -/
def partContrib (p : Json) : Except JsErr String :=
  if isNullJ p then .error .typeErr
  else
    match jsGetJ p "text" with
    | some v => if jsTruthy v then .ok (jsToString v) else .ok ""
    | none => .ok ""

/-- The `parts` chain `res?.response?.candidates?.[0]?.content?.parts`. -/
def partsChain (res : Option Json) : Option Json :=
  jsGet (jsGet (jsIdx0 (jsGet (jsGet res "response") "candidates")) "content") "parts"

/-- Shapes 3 and 4 of the normalizer: when the `parts` chain is an array
(`parts && Array.isArray(parts)`), map `p.text || ""` over it and join;
otherwise throw `Error("AI returned no text")`. -/
def extractParts (res : Option Json) : Except JsErr String :=
  match partsChain res with
  | some (.arr ps) => (ps.mapM partContrib).map (fun l => String.join l)
  | _ => .error (.errObj "AI returned no text")

/-- The response-shape normalizer (`ResponseExtractor`, spec §4.1), as in
`src/actions/dashboard.js` lines 38–52 (the same block appears in
`interview.js` and the cover-letter and insights actions):
1. a direct string `text` field is returned;
2. else a string `response.text` field is returned;
3. else if `response.candidates[0].content.parts` is an array, each
   part's `text` (or `""` when falsy) is joined;
4. else `Error("AI returned no text")` is thrown. -/
def extractText (res : Option Json) : Except JsErr String :=
  match jsGet res "text" with
  | some (.str s) => .ok s
  | _ =>
    match jsGet (jsGet res "response") "text" with
    | some (.str s) => .ok s
    | _ => extractParts res

/-- Modelled from the spec: claim C1's description of the extractor, in
which shape 3 "returns the concatenation of each fragment's text field in
list order, treating a missing fragment text as the empty string" — field
access on a fragment never fails and only string text fields
contribute. -/
def claimFragText (p : Json) : String :=
  match jsGetJ p "text" with
  | some (.str s) => s
  | _ => ""

/-- Modelled from the spec: shape 3/4 of claim C1 — concatenate the
fragments' text fields, treating missing text as empty. -/
def claimExtractParts (res : Option Json) : Except JsErr String :=
  match partsChain res with
  | some (.arr ps) => .ok (String.join (ps.map claimFragText))
  | _ => .error (.errObj "AI returned no text")

/-- Modelled from the spec: claim C1's three-shape extractor. -/
def claimExtractText (res : Option Json) : Except JsErr String :=
  match jsGet res "text" with
  | some (.str s) => .ok s
  | _ =>
    match jsGet (jsGet res "response") "text" with
    | some (.str s) => .ok s
    | _ => claimExtractParts res

/-- A part is tame when the code treats it exactly as claim C1 reads:
it is not `null` (so `p.text` cannot throw) and its `text` field is
absent, a string, or falsy (so no JS string coercion happens). -/
def partOk (p : Json) : Bool :=
  if isNullJ p then false
  else
    match jsGetJ p "text" with
    | none => true
    | some (.str _) => true
    | some v => !jsTruthy v

/-- All parts tame (trivially true when shape 3 does not apply). -/
def envPartsOk (res : Option Json) : Bool :=
  match partsChain res with
  | some (.arr ps) => ps.all partOk
  | _ => true

/-- The cover-letter variant of the extractor trims each branch's result
(`src/unnamed/part_000` lines 204–222); errors are unchanged. -/
def extractTextTrim (res : Option Json) : Except JsErr String :=
  match extractText res with
  | .ok s => .ok (jsTrimStr s)
  | .error e => .error e

/-- The cover-letter extraction step including its inner `catch`, which
rethrows any extraction failure as `Error("Failed to parse AI response")`
(`src/unnamed/part_000` lines 223–226). -/
def coverExtractStep (res : Option Json) : Except JsErr String :=
  match extractTextTrim res with
  | .ok s => .ok s
  | .error _ => .error (.errObj "Failed to parse AI response")

/-- The check `err?.status === 429` (strict, so only a number 429 qualifies). -/
def quotaStatus429 (j : Json) : Bool :=
  match jsGetJ j "status" with
  | some (.num q) => jsNumEq q (jsInt 429)
  | _ => false

/-- The message the classifier actually inspects:
`typeof err?.message === "string" ? err.message : JSON.stringify(err)`
(`src/unnamed/part_000` line 163). -/
def effectiveMsg (j : Json) : String :=
  match jsGetJ j "message" with
  | some (.str s) => s
  | _ => jsStringify j

/-- The two substring probes. -/
def quotaSubstr (msg : String) : Bool :=
  strIncludes msg "RESOURCE_EXHAUSTED" || strIncludes msg "Quota exceeded"

/-- The check `parsed?.error?.code === 429 || parsed?.error?.status === "RESOURCE_EXHAUSTED"`. -/
def quotaParsedCond (p : Json) : Bool :=
  (match jsGet (jsGet (some p) "error") "code" with
   | some (.num q) => jsNumEq q (jsInt 429)
   | _ => false) ||
  (match jsGet (jsGet (some p) "error") "status" with
   | some (.str s) => s == "RESOURCE_EXHAUSTED"
   | _ => false)

/-- The guarded JSON probe of the classifier:
`msg && msg.trim().startsWith("{") ? JSON.parse(msg) : null`, with the
surrounding `try`/`catch` turning a parse failure into `false`. -/
def quotaJsonCond (msg : String) : Bool :=
  if !(msg == "") && listStartsWith ['\x7b'] (jsTrimList msg.data) then
    match jsonParse msg with
    | some p => quotaParsedCond p
    | none => false
  else false

/-- The function `isQuotaError` (`src/unnamed/part_000` lines 160–173), the spec's
`RateLimitClassifier.isRateLimited`.  `none` models an `undefined`
argument; any falsy error is rejected up front (`if (!err) return
false`). -/
def isQuotaError (errO : Option Json) : Bool :=
  match errO with
  | none => false
  | some j =>
    if !jsTruthy j then false
    else if quotaStatus429 j then true
    else if quotaSubstr (effectiveMsg j) then true
    else if quotaJsonCond (effectiveMsg j) then true
    else false

/-- Modelled from the spec: claim C4's classification rule, read
literally — the substring and JSON probes apply to the error's *message*
(only present when it is a string field), and an error meeting no
condition is not rate-limited. -/
def claimRateLimited (errO : Option Json) : Bool :=
  match errO with
  | none => false
  | some j =>
    quotaStatus429 j ||
    (match jsGetJ j "message" with
     | some (.str msg) =>
       quotaSubstr msg ||
       (match jsonParse msg with
        | some p => quotaParsedCond p
        | none => false)
     | _ => false)

/-- Claim C4 as amended: the same rule, but applied to the *effective*
message — the string message when present, else `JSON.stringify` of the
whole error — with the JSON probe guarded by a leading `{` after
trimming, and any falsy error never rate-limited. -/
def amendedRateLimited (errO : Option Json) : Bool :=
  match errO with
  | none => false
  | some j =>
    jsTruthy j &&
    (quotaStatus429 j ||
     quotaSubstr (effectiveMsg j) ||
     quotaJsonCond (effectiveMsg j))

/-- The call `.includes('RetryInfo')` on a `@type` value: substring test on a
string, element test on an array, `TypeError` on anything else (only
truthy values reach the call). -/
def jsIncludes (v : Json) (pat : String) : Except JsErr Bool :=
  match v with
  | .str s => .ok (strIncludes s pat)
  | .arr xs => .ok (xs.any (fun x => match x with | .str t => t == pat | _ => false))
  | _ => .error .typeErr

/-- The loop guard `d['@type'] && d['@type'].includes('RetryInfo') &&
d.retryDelay`: a `null` entry throws on the property access; a falsy
`@type` or `retryDelay` fails the guard. -/
def guardD (d : Json) : Except JsErr Bool :=
  match d with
  | .null => .error .typeErr
  | _ =>
    match jsGetJ d "@type" with
    | none => .ok false
    | some tv =>
      if jsTruthy tv then do
        let inc ← jsIncludes tv "RetryInfo"
        if inc then
          match jsGetJ d "retryDelay" with
          | some rv => .ok (jsTruthy rv)
          | none => .ok false
        else .ok false
      else .ok false

/-- The `retryDelay` value of an entry that passed the guard. -/
def retryDelayOf (d : Json) : Json :=
  (jsGetJ d "retryDelay").getD Json.null

/-- The `for (const d of details)` body of `parseRetryMs`: the first
entry passing the guard whose (string-coerced) `retryDelay` matches the
regex yields `Math.ceil(parseFloat(m[1]) * 1000)`; otherwise fall
through to 0. -/
def loopDetails : List Json → Except JsErr ℤ
  | [] => .ok 0
  | d :: rest => do
    let g ← guardD d
    if g then
      match retryExec (jsToString (retryDelayOf d)) with
      | some m1 => .ok (jsCeil (jsMul1000 (parseFloatDec m1)))
      | none => loopDetails rest
    else loopDetails rest

/-- The selection `typeof err?.message === "string" ? err.message : null`
(`src/unnamed/part_000` line 144). -/
def msgString (errO : Option Json) : Option String :=
  match jsGet errO "message" with
  | some (.str s) => some s
  | _ => none

/-- The body of `parseRetryMs` (`src/unnamed/part_000` lines 142–158)
inside its `try`: select the string message, parse it when it trim-starts
with `{` (a parse failure throws), take `parsed?.error?.details || []`,
and scan it.  `for (const d of ...)` iterates arrays and strings and
throws `TypeError` on other truthy values. -/
def parseRetryBody (errO : Option Json) : Except JsErr ℤ := do
  let parsed : Json ←
    match msgString errO with
    | some msg =>
      if !(msg == "") && listStartsWith ['\x7b'] (jsTrimList msg.data) then
        match jsonParse msg with
        | some j => pure j
        | none => Except.error JsErr.badJson
      else pure Json.null
    | none => pure Json.null
  let details : Json :=
    match jsGet (jsGet (some parsed) "error") "details" with
    | some v => if jsTruthy v then v else Json.arr []
    | none => Json.arr []
  match details with
  | .arr ds => loopDetails ds
  | .str s => loopDetails (s.data.map (fun c => Json.str (String.mk [c])))
  | _ => Except.error JsErr.typeErr

/-- The function `parseRetryMs`: the `catch` swallows anything the body throws and the
function returns 0. -/
def parseRetryMs (errO : Option Json) : ℤ :=
  match parseRetryBody errO with
  | .ok n => n
  | .error _ => 0

/-- The preferred model target (`src/unnamed/part_000` line 139). -/
def preferredModel : String := "gemini-2.5-pro"

/-- The fallback model target (`src/unnamed/part_000` line 140). -/
def fallbackModel : String := "gemini-2.0-flash"

/-- Result of the resilient invocation: the outcome, the list of backend
targets invoked in order, and the waited milliseconds (the `setTimeout`
duration, kept as data per spec §5). -/
structure InvokeRun where
  result : Except JsErr Json
  trace : List String
  waitedMs : ℤ
deriving Repr

/-- The `ResilientInvoker` (`src/unnamed/part_000` lines 179–199): try
the preferred target; on a quota-classified failure wait the suggested
delay and try the fallback target exactly once, surfacing its error if it
also fails; on a non-quota failure rethrow at once.  The backend is the
sole effect, modelled as a function from target to envelope-or-thrown
error. -/
def resilientInvoke (backend : String → Except Json Json) : InvokeRun :=
  match backend preferredModel with
  | .ok r => ⟨.ok r, [preferredModel], 0⟩
  | .error e =>
    if isQuotaError (some e) then
      let w := parseRetryMs (some e)
      match backend fallbackModel with
      | .ok r => ⟨.ok r, [preferredModel, fallbackModel], w⟩
      | .error e2 => ⟨.error (.thrown e2), [preferredModel, fallbackModel], w⟩
    else ⟨.error (.thrown e), [preferredModel], 0⟩

/-- The `generateCoverLetter` AI core (`src/unnamed/part_000` lines
135–243): resilient invocation, trimmed extraction with its inner
`catch`, and the outer `catch` that rethrows any failure as
`Error("Failed to generate cover letter")`.  Persistence returns the
extracted content. -/
def generateCoverLetterM (backend : String → Except Json Json) : Except JsErr String :=
  match (resilientInvoke backend).result with
  | .error _ => .error (.errObj "Failed to generate cover letter")
  | .ok env =>
    match coverExtractStep (some env) with
    | .error _ => .error (.errObj "Failed to generate cover letter")
    | .ok content => .ok content

/-- The action `generateAIInsights` (`src/actions/dashboard.js` lines 10–55): a
single backend invocation, extraction, fence stripping, trim, and
`JSON.parse`; there is no `catch`, so every failure propagates as
itself.  The second component counts backend invocations (structurally
one). -/
def generateAIInsightsM (backendRes : Except Json Json) : Except JsErr Json × ℕ :=
  (match backendRes with
   | .error e => .error (.thrown e)
   | .ok env =>
     match extractText (some env) with
     | .error e => .error e
     | .ok t =>
       match jsonParseL (jsTrimList (stripFencesDash t.data)) with
       | none => .error .badJson
       | some v => .ok v,
   1)

/-- The `generateQuiz` AI core (`src/actions/interview.js` lines 46–74):
extraction, the interview fence stripper, `JSON.parse`, then
`quiz.questions` (throwing on a `null` quiz); the surrounding `catch`
rethrows every failure as `Error("Failed to generate quiz questions")`. -/
def generateQuizM (backendRes : Except Json Json) : Except JsErr (Option Json) :=
  match backendRes with
  | .error _ => .error (.errObj "Failed to generate quiz questions")
  | .ok env =>
    match extractText (some env) with
    | .error _ => .error (.errObj "Failed to generate quiz questions")
    | .ok t =>
      match jsonParseL (jsTrimList (stripFencesQuiz t.data)) with
      | none => .error (.errObj "Failed to generate quiz questions")
      | some .null => .error (.errObj "Failed to generate quiz questions")
      | some quiz => .ok (jsGetJ quiz "questions")

/-- One quiz question as `saveQuizResult` consumes it. -/
structure QuizQuestion where
  question : String
  correctAnswer : String
  explanation : String
deriving Repr

/-- One entry of `questionResults` (`src/actions/interview.js` lines
86–92); `answers[index]` past the end is `undefined`, never equal to a
string answer. -/
structure QuestionResult where
  question : String
  answer : String
  userAnswer : Option String
  isCorrect : Bool
  explanation : String
deriving Repr

/-- The assessment record `saveQuizResult` stores. -/
structure Assessment where
  quizScore : JsNum
  questions : List QuestionResult
  category : String
  improvementTip : Json
deriving Repr

/-- Build `questionResults`. -/
def questionResults (questions : List QuizQuestion) (answers : List String) :
    List QuestionResult :=
  (List.range questions.length).zip questions |>.map (fun iq =>
    { question := iq.2.question
      answer := iq.2.correctAnswer
      userAnswer := answers.get? iq.1
      isCorrect := match answers.get? iq.1 with
                   | some a => iq.2.correctAnswer == a
                   | none => false
      explanation := iq.2.explanation })

/-- The action `saveQuizResult` (`src/actions/interview.js` lines 76–157): when some
answers are wrong, an improvement tip is generated from a second backend
call whose whole pipeline sits in a `try` that logs and continues —
`improvementTip` stays `null` on any failure.  The final `db.create` is
an external success here; the stored record is returned. -/
def saveQuizResultM (questions : List QuizQuestion) (answers : List String)
    (score : JsNum) (tipBackendRes : Except Json Json) : Except JsErr Assessment :=
  let qrs := questionResults questions answers
  let wrong := qrs.filter (fun r => !r.isCorrect)
  let tip : Json :=
    if wrong.isEmpty then Json.null
    else
      match tipBackendRes with
      | .error _ => Json.null
      | .ok env =>
        match extractText (some env) with
        | .error _ => Json.null
        | .ok t => Json.str (jsTrimStr t)
  .ok { quizScore := score, questions := qrs, category := "Technical", improvementTip := tip }

/-- Wrap text in markdown code fences with the `json` language tag. -/
def wrapJsonFence (t : String) : String := "```json\n" ++ t ++ "\n```"

/-- Wrap text in bare markdown code fences. -/
def wrapPlainFence (t : String) : String := "```\n" ++ t ++ "\n```"

/-- Does the text contain a three-backtick run anywhere? -/
def hasTripleBtick (t : String) : Bool :=
  listContainsPat [btick, btick, btick] t.data

/-! ## Sample values used by witnesses and counterexamples -/

/-- A plain 500-style backend error (not rate-limited). -/
def err500 : Json := Json.obj [("status", Json.num ⟨500, 1⟩)]

/-- A 429 backend error (rate-limited by status). -/
def err429 : Json := Json.obj [("status", Json.num ⟨429, 1⟩)]

/-- A backend whose every call fails with `err500`. -/
def backend500 : String → Except Json Json := fun _ => Except.error err500

/-- A backend failing with `err429` on the preferred target and `err500`
on anything else. -/
def backendBoth : String → Except Json Json := fun t =>
  if t == preferredModel then Except.error err429 else Except.error err500

/-- A shape-3 envelope whose parts list contains a `null` fragment. -/
def nullPartEnv : Json :=
  Json.obj [("response", Json.obj [("candidates", Json.arr
    [Json.obj [("content", Json.obj [("parts", Json.arr [Json.null])])]])])]

/-- A shape-3 envelope with two well-formed fragments (spec §8
scenario C). -/
def helloEnv : Json :=
  Json.obj [("response", Json.obj [("candidates", Json.arr
    [Json.obj [("content", Json.obj [("parts", Json.arr
      [Json.obj [("text", Json.str "Hello, ")],
       Json.obj [("text", Json.str "world!")]])])]])])]

/-- A RetryInfo detail entry carrying `retryDelay: "3.5s"`. -/
def retryDetailW : Json :=
  Json.obj [("@type", Json.str "type.googleapis.com/google.rpc.RetryInfo"),
            ("retryDelay", Json.str "3.5s")]

/-- The quota-error message carrying the RetryInfo detail. -/
def retryMsgW : String :=
  "\x7b\"error\":\x7b\"details\":[\x7b\"@type\":\"type.googleapis.com/google.rpc.RetryInfo\",\"retryDelay\":\"3.5s\"\x7d]\x7d\x7d"

/-- An error value whose message is `retryMsgW`. -/
def quotaErrW : Json := Json.obj [("message", Json.str retryMsgW)]

/-- What `JSON.parse` makes of `retryMsgW`. -/
def retryParsedW : Json :=
  Json.obj [("error", Json.obj [("details", Json.arr [retryDetailW])])]

/-! ## Helper lemmas -/

theorem jsonWs_sub_jsWs (c : Char) (h : jsonWsChar c = true) : jsWsChar c = true := by
  unfold jsonWsChar at h
  unfold jsWsChar
  simp only [Bool.or_eq_true, beq_iff_eq, Bool.and_eq_true, decide_eq_true_eq] at h ⊢
  omega

theorem dropWhile_jsonWs_to_jsWs : ∀ (cs : List Char) (c : Char) (r : List Char),
    cs.dropWhile jsonWsChar = c :: r → jsWsChar c = false →
    cs.dropWhile jsWsChar = c :: r := by
  intro cs
  induction cs with
  | nil => intro c r h _; cases h
  | cons x xs ih =>
    intro c r h hc
    rw [List.dropWhile_cons] at h ⊢
    by_cases hx : jsonWsChar x = true
    · rw [if_pos hx] at h
      rw [if_pos (jsonWs_sub_jsWs x hx)]
      exact ih c r h hc
    · rw [if_neg hx] at h
      injection h with h1 h2
      subst h1
      subst h2
      rw [if_neg (by rw [hc]; simp)]

theorem trimRightWs_append_nl (l : List Char) : trimRightWs (l ++ ['\n']) = trimRightWs l := by
  unfold trimRightWs
  rw [List.reverse_append]
  simp only [List.reverse_cons, List.reverse_nil, List.nil_append, List.cons_append,
    List.dropWhile_cons]
  rw [if_pos (by decide)]

theorem jsTrimList_append_nl (l : List Char) : jsTrimList (l ++ ['\n']) = jsTrimList l := by
  unfold jsTrimList trimLeftWs
  rw [List.dropWhile_append]
  by_cases he : (l.dropWhile jsWsChar).isEmpty
  · rw [if_pos he]
    rw [show List.dropWhile jsWsChar ['\n'] = [] by decide]
    rw [show l.dropWhile jsWsChar = [] from by simpa using he]
  · rw [if_neg he]
    exact trimRightWs_append_nl _

theorem jsTrimList_starts (cs : List Char) (c : Char) (r : List Char)
    (h : cs.dropWhile jsWsChar = c :: r) (hc : jsWsChar c = false) :
    ∃ r2, jsTrimList cs = c :: r2 := by
  unfold jsTrimList trimLeftWs
  rw [h]
  unfold trimRightWs
  rw [List.reverse_cons, List.dropWhile_append]
  by_cases he : ((List.reverse r).dropWhile jsWsChar).isEmpty
  · rw [if_pos he]
    rw [show List.dropWhile jsWsChar [c] = [c] from by simp [List.dropWhile_cons, hc]]
    exact ⟨[], by simp⟩
  · rw [if_neg he]
    rw [List.reverse_append]
    exact ⟨((List.reverse r).dropWhile jsWsChar).reverse, by simp⟩

theorem takeWhile_app_eq (p : Char → Bool) :
    ∀ (a b : List Char), (∀ x ∈ a, p x = true) → (∀ y, b.head? = some y → p y = false) →
    (a ++ b).takeWhile p = a ∧ (a ++ b).dropWhile p = b := by
  intro a
  induction a with
  | nil =>
    intro b _ hb
    simp only [List.nil_append]
    cases b with
    | nil => simp
    | cons y ys =>
      have := hb y rfl
      simp [List.takeWhile_cons, List.dropWhile_cons, this]
  | cons x xs ih =>
    intro b ha hb
    have hx := ha x (by simp)
    obtain ⟨h1, h2⟩ := ih b (fun z hz => ha z (by simp [hz])) hb
    simp [List.takeWhile_cons, List.dropWhile_cons, hx, h1, h2]

theorem noPat_cons (c : Char) (cs : List Char) (pat : List Char)
    (h : listContainsPat pat (c :: cs) = false) :
    listStartsWith pat (c :: cs) = false ∧ listContainsPat pat cs = false := by
  unfold listContainsPat at h
  simp only [Bool.or_eq_false_iff] at h
  exact h

/-! ## Fence-stripping lemmas (claim C2) -/

theorem stripFuelDash_core : ∀ (l : List Char) (f : ℕ), l.length + 4 ≤ f →
    listContainsPat [btick, btick, btick] l = false →
    stripFuelDash f (l ++ '\n' :: btick :: btick :: btick :: []) = l ++ ['\n'] := by
  intro l
  induction l with
  | nil =>
    intro f hf _
    match f, hf with
    | f1 + 4, _ =>
      show stripFuelDash (f1 + 4) ('\n' :: btick :: btick :: btick :: []) = ['\n']
      rw [stripFuelDash]
      rw [if_neg (by decide)]
      rw [stripFuelDash]
      rw [if_pos (by constructor <;> rfl)]
      simp [dropJsonTag, dropNl]
      match f1 with
      | 0 => rfl
      | f2 + 1 => rfl
  | cons c cs ih =>
    intro f hf hnf
    obtain ⟨h1, h2⟩ := noPat_cons c cs _ hnf
    match f, hf with
    | f1 + 1, hf =>
      show stripFuelDash (f1 + 1)
        (c :: (cs ++ '\n' :: btick :: btick :: btick :: [])) = c :: (cs ++ ['\n'])
      rw [stripFuelDash]
      rw [if_neg ?hcond]
      case hcond =>
        intro ⟨hc, htake⟩
        subst hc
        match cs, htake with
        | [], htake => exact absurd htake (by decide)
        | [a], htake =>
          simp at htake
          exact absurd htake.2 (by decide)
        | a :: b :: rest, htake =>
          simp at htake
          obtain ⟨ha, hb⟩ := htake
          subst ha
          subst hb
          simp [listStartsWith] at h1
      rw [ih f1 (by simp at hf ⊢; omega) h2]

theorem stripFuelDash_wrapJson (t : List Char) (f : ℕ) (hf : t.length + 12 ≤ f)
    (h : listContainsPat [btick, btick, btick] t = false) :
    stripFuelDash f (btick :: btick :: btick :: 'j' :: 's' :: 'o' :: 'n' :: '\n' ::
      (t ++ '\n' :: btick :: btick :: btick :: [])) = t ++ ['\n'] := by
  match f, hf with
  | f1 + 1, hf =>
    rw [stripFuelDash, if_pos ⟨rfl, rfl⟩]
    have hstep : dropNl (dropJsonTag ((btick :: btick :: 'j' :: 's' :: 'o' :: 'n' :: '\n' ::
        (t ++ '\n' :: btick :: btick :: btick :: [])).drop 2)) =
        t ++ '\n' :: btick :: btick :: btick :: [] := by
      simp [dropJsonTag, dropNl]
    rw [hstep]
    exact stripFuelDash_core t f1 (by omega) h

theorem stripFuelDash_wrapPlain (t : List Char) (f : ℕ) (hf : t.length + 8 ≤ f)
    (h : listContainsPat [btick, btick, btick] t = false) :
    stripFuelDash f (btick :: btick :: btick :: '\n' ::
      (t ++ '\n' :: btick :: btick :: btick :: [])) = t ++ ['\n'] := by
  match f, hf with
  | f1 + 1, hf =>
    rw [stripFuelDash, if_pos ⟨rfl, rfl⟩]
    have hstep : dropNl (dropJsonTag ((btick :: btick :: '\n' ::
        (t ++ '\n' :: btick :: btick :: btick :: [])).drop 2)) =
        t ++ '\n' :: btick :: btick :: btick :: [] := by
      rw [List.drop]
      rw [List.drop]
      rw [List.drop_zero]
      rw [dropJsonTag]
      rw [if_neg (by simp)]
      rfl
    rw [hstep]
    exact stripFuelDash_core t f1 (by omega) h

theorem stripFencesDash_wrapJson (t : String) (h : hasTripleBtick t = false) :
    stripFencesDash ((wrapJsonFence t).data) = t.data ++ ['\n'] := by
  have hdata : (wrapJsonFence t).data =
      btick :: btick :: btick :: 'j' :: 's' :: 'o' :: 'n' :: '\n' ::
        (t.data ++ '\n' :: btick :: btick :: btick :: []) := by
    show ("```json\n" ++ t ++ "\n```").data = _
    rw [String.data_append, String.data_append]
    rfl
  unfold stripFencesDash
  rw [hdata]
  exact stripFuelDash_wrapJson t.data _ (by simp) h

theorem stripFencesDash_wrapPlain (t : String) (h : hasTripleBtick t = false) :
    stripFencesDash ((wrapPlainFence t).data) = t.data ++ ['\n'] := by
  have hdata : (wrapPlainFence t).data =
      btick :: btick :: btick :: '\n' ::
        (t.data ++ '\n' :: btick :: btick :: btick :: []) := by
    show ("```\n" ++ t ++ "\n```").data = _
    rw [String.data_append, String.data_append]
    rfl
  unfold stripFencesDash
  rw [hdata]
  exact stripFuelDash_wrapPlain t.data _ (by simp) h

/-! ## Extractor lemmas (claim C1) -/

theorem partContrib_ok (p : Json) (h : partOk p = true) :
    partContrib p = .ok (claimFragText p) := by
  unfold partOk at h
  unfold partContrib claimFragText
  by_cases hn : isNullJ p = true
  · rw [hn] at h; cases h
  · rw [if_neg hn] at h ⊢
    cases hv : jsGetJ p "text" with
    | none => rfl
    | some v =>
      rw [hv] at h
      cases v <;> simp_all [jsTruthy]
      rename_i s
      cases hs : s == "" <;> simp_all [jsToString]

theorem mapM_partContrib (ps : List Json) (h : ps.all partOk = true) :
    ps.mapM partContrib = .ok (ps.map claimFragText) := by
  induction ps with
  | nil => rfl
  | cons p rest ih =>
    simp only [List.all_cons, Bool.and_eq_true] at h
    rw [List.mapM_cons, partContrib_ok p h.1, ih h.2]
    rfl

theorem extractParts_eq_claim (res : Option Json) (h : envPartsOk res = true) :
    extractParts res = claimExtractParts res := by
  unfold envPartsOk at h
  unfold extractParts claimExtractParts
  cases hp : partsChain res with
  | none => rfl
  | some v =>
    rw [hp] at h
    cases v <;> try rfl
    rename_i ps
    have h2 : ps.all partOk = true := by simpa using h
    show (ps.mapM partContrib).map (fun l => String.join l) =
      Except.ok (String.join (ps.map claimFragText))
    rw [mapM_partContrib ps h2]
    rfl

theorem extractText_eq_claim (res : Option Json) (h : envPartsOk res = true) :
    extractText res = claimExtractText res := by
  unfold extractText claimExtractText
  rw [extractParts_eq_claim res h]

/-! ## Retry-delay lemmas (claims C5, C10) -/

theorem parseFloatDec_num_nonneg (s : String) : 0 ≤ (parseFloatDec s).num := by
  show 0 ≤ (decFrac s).1
  unfold decFrac
  split <;> simp

theorem jsCeil_nonneg (x : JsNum) (h : 0 ≤ x.num) : 0 ≤ jsCeil x := by
  unfold jsCeil
  rcases Nat.eq_zero_or_pos x.den with hd | hd
  · simp [hd]
  · have hb : (0 : ℤ) < (x.den : ℤ) := by exact_mod_cast hd
    have h1 : (-x.num) / (x.den : ℤ) ≤ 0 / (x.den : ℤ) :=
      Int.ediv_le_ediv hb (by omega)
    simp at h1
    omega

theorem loopDetails_ok_nonneg : ∀ ds n, loopDetails ds = .ok n → 0 ≤ n := by
  intro ds
  induction ds with
  | nil => intro n h; simp [loopDetails] at h; omega
  | cons d rest ih =>
    intro n h
    simp only [loopDetails, bind, Except.bind] at h
    cases hg : guardD d with
    | error e => rw [hg] at h; cases h
    | ok g =>
      rw [hg] at h
      cases g with
      | false => simp at h; exact ih n h
      | true =>
        simp at h
        cases hr : retryExec (jsToString (retryDelayOf d)) with
        | none => rw [hr] at h; exact ih n h
        | some m1 =>
          rw [hr] at h
          cases h
          refine jsCeil_nonneg _ ?_
          show (0 : ℤ) ≤ (parseFloatDec m1).num * 1000
          have := parseFloatDec_num_nonneg m1
          positivity

theorem parseRetryBody_ok_nonneg (errO : Option Json) (n : ℤ)
    (h : parseRetryBody errO = .ok n) : 0 ≤ n := by
  unfold parseRetryBody at h
  simp only [bind, Except.bind, pure, Except.pure] at h
  repeat' split at h
  all_goals first
    | exact loopDetails_ok_nonneg _ _ h
    | cases h

theorem parseRetryMs_nonneg (errO : Option Json) : 0 ≤ parseRetryMs errO := by
  unfold parseRetryMs
  cases hb : parseRetryBody errO with
  | ok n => exact parseRetryBody_ok_nonneg errO n hb
  | error e => simp

theorem parseRetryMs_no_msg (errO : Option Json) (h : msgString errO = none) :
    parseRetryMs errO = 0 := by
  simp [parseRetryMs, parseRetryBody, h, bind, Except.bind, pure, Except.pure, jsGet,
    loopDetails]

theorem parseRetryMs_bad_json (errO : Option Json) (msg : String)
    (h : msgString errO = some msg) (hbad : jsonParse msg = none) :
    parseRetryMs errO = 0 := by
  simp only [parseRetryMs, parseRetryBody, h, bind, Except.bind, pure, Except.pure]
  by_cases hc : (!(msg == "") && listStartsWith ['\x7b'] (jsTrimList msg.data)) = true
  · rw [if_pos hc, hbad]
  · rw [if_neg hc]
    simp [jsGet, loopDetails]

theorem parseRetryMs_no_details (errO : Option Json) (msg : String) (j : Json)
    (h : msgString errO = some msg) (hp : jsonParse msg = some j)
    (hd : jsGet (jsGet (some j) "error") "details" = none) :
    parseRetryMs errO = 0 := by
  simp only [parseRetryMs, parseRetryBody, h, bind, Except.bind, pure, Except.pure]
  by_cases hc : (!(msg == "") && listStartsWith ['\x7b'] (jsTrimList msg.data)) = true
  · rw [if_pos hc, hp]
    simp [hd, loopDetails]
  · rw [if_neg hc]
    simp [jsGet, loopDetails]

theorem jsCeil_toRat (a : ℤ) (b : ℕ) : jsCeil ⟨a, b⟩ = ⌈(a : ℚ) / (b : ℚ)⌉ := by
  unfold jsCeil
  rw [show ((a : ℚ) / (b : ℚ)) = -(((-a : ℤ) : ℚ) / ((b : ℕ) : ℚ)) by push_cast; ring]
  rw [Int.ceil_neg, Rat.floor_intCast_div_natCast]

theorem ceil_parseFloat_1000 (D : String) :
    jsCeil (jsMul1000 (parseFloatDec D)) = ⌈decimalRat D * 1000⌉ := by
  unfold parseFloatDec decimalRat jsMul1000
  rw [show (⟨(decFrac D).1, (decFrac D).2⟩ : JsNum).num = (decFrac D).1 from rfl,
      show (⟨(decFrac D).1, (decFrac D).2⟩ : JsNum).den = (decFrac D).2 from rfl]
  rw [jsCeil_toRat]
  congr 1
  push_cast
  ring

theorem retryTryAt_int (d : List Char) (hd : d ≠ [])
    (hdig : ∀ x ∈ d, Char.isDigit x = true) :
    retryTryAt (d ++ ['s']) = some d := by
  obtain ⟨ht, hdr⟩ := takeWhile_app_eq Char.isDigit d ['s'] hdig
    (fun y hy => by cases hy; decide)
  unfold retryTryAt
  rw [ht, hdr, if_neg hd]
  rfl

theorem retryTryAt_frac (d fr : List Char) (hd : d ≠ []) (hfr : fr ≠ [])
    (hdig : ∀ x ∈ d, Char.isDigit x = true) (hfrd : ∀ x ∈ fr, Char.isDigit x = true) :
    retryTryAt (d ++ '.' :: (fr ++ ['s'])) = some (d ++ '.' :: fr) := by
  obtain ⟨ht, hdr⟩ := takeWhile_app_eq Char.isDigit d ('.' :: (fr ++ ['s'])) hdig
    (fun y hy => by cases hy; decide)
  obtain ⟨ht2, hdr2⟩ := takeWhile_app_eq Char.isDigit fr ['s'] hfrd
    (fun y hy => by cases hy; decide)
  unfold retryTryAt
  rw [ht, hdr, if_neg hd]
  show (let frx := (fr ++ ['s']).takeWhile Char.isDigit
        if frx = [] then none
        else match (fr ++ ['s']).dropWhile Char.isDigit with
             | 's' :: _ => some (d ++ '.' :: frx)
             | _ => none) = some (d ++ '.' :: fr)
  simp only [ht2, hdr2]
  rw [if_neg hfr]

theorem retryExecL_at0 (l : List Char) (g : List Char)
    (h : retryTryAt l = some g) : retryExecL l = some g := by
  cases l with
  | nil => cases h
  | cons c cs =>
    unfold retryExecL
    rw [h]

theorem retryExec_decimal (D : String) (h : isDecimalStr D = true) :
    retryExec (D ++ "s") = some D := by
  unfold isDecimalStr at h
  have hsplit := List.takeWhile_append_dropWhile (p := Char.isDigit) (l := D.data)
  have hip : ∀ x ∈ D.data.takeWhile Char.isDigit, Char.isDigit x = true :=
    fun x hx => List.mem_takeWhile_imp hx
  by_cases hipn : D.data.takeWhile Char.isDigit = []
  · rw [if_pos hipn] at h; cases h
  · rw [if_neg hipn] at h
    have hdata : (D ++ "s").data = D.data ++ ['s'] := by
      rw [String.data_append]
    cases hdrop : D.data.dropWhile Char.isDigit with
    | nil =>
      rw [hdrop, List.append_nil] at hsplit
      unfold retryExec
      rw [hdata, ← hsplit]
      rw [retryExecL_at0 _ _ (retryTryAt_int _ hipn hip)]
      rw [hsplit]
      rfl
    | cons c r =>
      rw [hdrop] at h hsplit
      by_cases hc : c = '.'
      · subst hc
        have hfr : ∀ x ∈ r.takeWhile Char.isDigit, Char.isDigit x = true :=
          fun x hx => List.mem_takeWhile_imp hx
        have h2 : (!(r.takeWhile Char.isDigit).isEmpty &&
            (r.dropWhile Char.isDigit).isEmpty) = true := h
        simp only [Bool.and_eq_true, Bool.not_eq_true', List.isEmpty_eq_false,
          List.isEmpty_eq_true] at h2
        obtain ⟨hfrne, hfrdrop⟩ := h2
        have hr : r = r.takeWhile Char.isDigit := by
          conv_lhs => rw [← List.takeWhile_append_dropWhile (p := Char.isDigit) (l := r)]
          rw [hfrdrop, List.append_nil]
        have hDdata : D.data =
            D.data.takeWhile Char.isDigit ++ '.' :: r.takeWhile Char.isDigit := by
          conv_lhs => rw [← hsplit]
          rw [← hr]
        unfold retryExec
        rw [hdata, hDdata, List.append_assoc]
        rw [show ('.' :: r.takeWhile Char.isDigit) ++ ['s'] =
          '.' :: (r.takeWhile Char.isDigit ++ ['s']) from rfl]
        rw [retryExecL_at0 _ _ (retryTryAt_frac _ _ hipn hfrne hip hfr)]
        rw [show D.data.takeWhile Char.isDigit ++ '.' :: r.takeWhile Char.isDigit
          = D.data from hDdata.symm]
        rfl
      · exfalso
        split at h
        · simp_all
        · simp_all
        · cases h

theorem loopDetails_first : ∀ (ds : List Json) (i : ℕ) (di : Json) (m1 : String),
    ds.get? i = some di →
    (∀ k, k < i → ∀ d, ds.get? k = some d → guardD d = .ok false) →
    guardD di = .ok true →
    retryExec (jsToString (retryDelayOf di)) = some m1 →
    loopDetails ds = .ok (jsCeil (jsMul1000 (parseFloatDec m1))) := by
  intro ds
  induction ds with
  | nil => intro i di m1 hget; cases i <;> cases hget
  | cons d rest ih =>
    intro i di m1 hget hskip hguard hmatch
    cases i with
    | zero =>
      rw [List.get?_cons_zero] at hget
      cases hget
      unfold loopDetails
      rw [hguard]
      simp only [bind, Except.bind]
      simp [hmatch]
    | succ i1 =>
      have hd0 : guardD d = .ok false := hskip 0 (Nat.succ_pos i1) d rfl
      unfold loopDetails
      rw [hd0]
      simp only [bind, Except.bind]
      simp only [Bool.false_eq_true, if_false]
      exact ih i1 di m1 (by simpa using hget)
        (fun k hk d2 hget2 => hskip (k + 1) (by omega) d2 (by simpa using hget2))
        hguard hmatch

theorem pValue_obj_brace (f : ℕ) (cs : List Char) (m : List (String × Json)) (r : List Char)
    (h : pValue f cs = some (Json.obj m, r)) : ∃ r2, skipW cs = '\x7b' :: r2 := by
  match f with
  | 0 => cases h
  | f1 + 1 =>
    simp only [pValue] at h
    cases hsk : skipW cs with
    | nil => simp only [hsk] at h; cases h
    | cons c rest =>
      simp only [hsk] at h
      by_cases h1 : c = 'n'
      · rw [if_pos h1] at h
        split at h <;> cases h
      · rw [if_neg h1] at h
        by_cases h2 : c = 't'
        · rw [if_pos h2] at h
          split at h <;> cases h
        · rw [if_neg h2] at h
          by_cases h3 : c = 'f'
          · rw [if_pos h3] at h
            split at h <;> cases h
          · rw [if_neg h3] at h
            by_cases h4 : c = '"'
            · rw [if_pos h4] at h
              simp [Option.map_eq_some'] at h
            · rw [if_neg h4] at h
              by_cases h5 : c = '\x7b'
              · exact ⟨rest, by rw [h5]⟩
              · rw [if_neg h5] at h
                by_cases h6 : c = '['
                · rw [if_pos h6] at h
                  split at h
                  · cases h
                  · simp [Option.map_eq_some'] at h
                · rw [if_neg h6] at h
                  by_cases h7 : c = '-' ∨ c.isDigit
                  · rw [if_pos h7] at h
                    simp [Option.map_eq_some'] at h
                  · rw [if_neg h7] at h
                    cases h

theorem jsonParse_obj_brace (msg : String) (m : List (String × Json))
    (h : jsonParse msg = some (Json.obj m)) : ∃ r2, skipW msg.data = '\x7b' :: r2 := by
  unfold jsonParse jsonParseL at h
  cases hp : pValue (msg.data.length + 1) msg.data with
  | none => rw [hp] at h; cases h
  | some p =>
    obtain ⟨v, rest⟩ := p
    simp only [hp] at h
    by_cases he : (skipW rest).isEmpty = true
    · rw [if_pos he] at h
      have hv := Option.some.inj h
      subst hv
      exact pValue_obj_brace _ _ _ _ hp
    · rw [if_neg he] at h
      cases h

theorem chain_get_obj (j : Json) (k1 k2 : String) (v : Json)
    (h : jsGet (jsGet (some j) k1) k2 = some v) : ∃ kvs, j = Json.obj kvs := by
  cases j with
  | obj kvs => exact ⟨kvs, rfl⟩
  | null => simp [jsGet] at h
  | bool b => simp [jsGet, jsGetJ] at h
  | num q => simp [jsGet, jsGetJ] at h
  | str s => simp [jsGet, jsGetJ] at h
  | arr xs => simp [jsGet, jsGetJ] at h

theorem jsTrim_brace_of_parse_obj (msg : String) (m : List (String × Json))
    (h : jsonParse msg = some (Json.obj m)) :
    (!(msg == "") && listStartsWith ['\x7b'] (jsTrimList msg.data)) = true := by
  obtain ⟨r2, hsk⟩ := jsonParse_obj_brace msg m h
  have hdw : msg.data.dropWhile jsWsChar = '\x7b' :: r2 :=
    dropWhile_jsonWs_to_jsWs msg.data _ r2 hsk (by decide)
  obtain ⟨r3, htrim⟩ := jsTrimList_starts msg.data '\x7b' r2 hdw (by decide)
  have hne : ¬(msg == "") = true := by
    intro hmsg
    rw [show msg = "" from by simpa using hmsg] at h
    cases h
  rw [htrim]
  simp only [Bool.and_eq_true, Bool.not_eq_true']
  exact ⟨by simpa using hne, by simp [listStartsWith]⟩

/-! ## Claim theorems -/

/-- Claim C1, counterexample.  The claim reads the shape-3 branch as
"concatenate each fragment's text field, treating a missing fragment
text as the empty string" for *every* envelope exposing the parts list.
On an envelope whose parts list contains a `null` fragment the code
instead throws a `TypeError` from the `p.text` access (and so neither
returns the concatenation nor fails with `MalformedResponse`), while the
claim's reading returns `""`. -/
theorem C1_counterexample :
    extractText (some nullPartEnv) = Except.error JsErr.typeErr ∧
    claimExtractText (some nullPartEnv) = Except.ok "" ∧
    extractText (some nullPartEnv) ≠ claimExtractText (some nullPartEnv) :=
  ⟨rfl, rfl, fun heq => by
    rw [show extractText (some nullPartEnv) = Except.error JsErr.typeErr from rfl,
        show claimExtractText (some nullPartEnv) = Except.ok "" from rfl] at heq
    exact Except.noConfusion heq⟩

/-- Claim C1, amended.  The extractor applies the three shape checks in
ordered precedence with first match winning, and for any other shape
fails with `MalformedResponse` ("AI returned no text"), exactly as the
claim states — provided every fragment of a shape-3 parts list is
non-`null` and its text field is absent, a string, or falsy.  (A `null`
fragment instead raises a type error, and a truthy non-string text field
is coerced to its JS string form rather than treated as text.) -/
theorem C1_response_extractor_amended (res : Option Json)
    (h : envPartsOk res = true) :
    extractText res = claimExtractText res :=
  extractText_eq_claim res h

/-- Claim C1 witness: spec §8 scenario C — two fragments "Hello, " and
"world!" concatenate. -/
theorem C1_response_extractor_amended_witness :
    envPartsOk (some helloEnv) = true ∧
    extractText (some helloEnv) = claimExtractText (some helloEnv) ∧
    extractText (some helloEnv) = Except.ok "Hello, world!" :=
  ⟨rfl, C1_response_extractor_amended (some helloEnv) rfl, rfl⟩

/-- Claim C2, counterexample.  The claim says wrapping any text in
markdown fences and extracting yields the same parsed value as parsing
the text directly.  But the stripper is a *global* replace: for the JSON
text `"a```b"` (a string literal containing three backticks) the inner
backticks are removed too, so the wrapped form parses to `"ab"` while
the direct parse gives `"a```b"`. -/
theorem C2_counterexample :
    jsonExtract (wrapJsonFence "\"a```b\"") = some (Json.str "ab") ∧
    jsonParse "\"a```b\"" = some (Json.str "a```b") ∧
    jsonExtract (wrapJsonFence "\"a```b\"") ≠ jsonParse "\"a```b\"" :=
  ⟨rfl, rfl, fun heq => by
    rw [show jsonExtract (wrapJsonFence "\"a```b\"") = some (Json.str "ab") from rfl,
        show jsonParse "\"a```b\"" = some (Json.str "a```b") from rfl] at heq
    simp at heq⟩

/-- Claim C2, amended.  Fence stripping removes *every* occurrence of the
fence pattern (not only the leading/trailing markers) and then trims; so
for every text containing no three-backtick run, wrapping it in fences
(with or without the `json` tag) and passing it through the JSON
extractor yields the same parsed value as parsing the trimmed text
directly. -/
theorem C2_fence_roundtrip_amended (t : String) (h : hasTripleBtick t = false) :
    jsonExtract (wrapJsonFence t) = jsonParse (jsTrimStr t) ∧
    jsonExtract (wrapPlainFence t) = jsonParse (jsTrimStr t) := by
  constructor
  · show jsonParseL (jsTrimList (stripFencesDash (wrapJsonFence t).data)) = _
    rw [stripFencesDash_wrapJson t h, jsTrimList_append_nl]
    rfl
  · show jsonParseL (jsTrimList (stripFencesDash (wrapPlainFence t).data)) = _
    rw [stripFencesDash_wrapPlain t h, jsTrimList_append_nl]
    rfl

/-- Claim C2 witness: a fenced JSON object round-trips. -/
theorem C2_fence_roundtrip_amended_witness :
    hasTripleBtick "\x7b\"a\":1\x7d" = false ∧
    jsonExtract (wrapJsonFence "\x7b\"a\":1\x7d") = jsonParse (jsTrimStr "\x7b\"a\":1\x7d") ∧
    jsonExtract (wrapJsonFence "\x7b\"a\":1\x7d") = some (Json.obj [("a", Json.num ⟨1, 1⟩)]) :=
  ⟨rfl, (C2_fence_roundtrip_amended "\x7b\"a\":1\x7d" rfl).1, rfl⟩

/-- Claim C3: when the extracted text is not valid JSON after fence
stripping, `generateAIInsights` fails with `InvalidJson` (the
`JSON.parse` `SyntaxError`), returns no partial or default value, and
performs no further backend invocation (the single invocation count is
1). -/
theorem C3_invalid_json_terminal (env : Json) (t : String)
    (hx : extractText (some env) = .ok t)
    (hbad : jsonParseL (jsTrimList (stripFencesDash t.data)) = none) :
    generateAIInsightsM (.ok env) = (.error .badJson, 1) := by
  simp [generateAIInsightsM, hx, hbad]

/-- Claim C3 witness: an envelope carrying non-JSON text. -/
theorem C3_invalid_json_terminal_witness :
    extractText (some (Json.obj [("text", Json.str "not json")])) = .ok "not json" ∧
    jsonParseL (jsTrimList (stripFencesDash ("not json").data)) = none ∧
    generateAIInsightsM (.ok (Json.obj [("text", Json.str "not json")])) =
      (.error .badJson, 1) :=
  ⟨rfl, rfl, C3_invalid_json_terminal _ _ rfl rfl⟩

/-- Claim C4, counterexample.  The claim's rule inspects only the
error's status and *message*.  The code, when the message is not a
string, substitutes `JSON.stringify(err)` for it: an error with no
message and no status but a field containing "Quota exceeded" is
classified rate-limited by the code, while the claim's rule says it is
not. -/
theorem C4_counterexample :
    isQuotaError (some (Json.obj [("detail", Json.str "Quota exceeded")])) = true ∧
    claimRateLimited (some (Json.obj [("detail", Json.str "Quota exceeded")])) = false :=
  ⟨rfl, rfl⟩

/-- Claim C4, amended.  The classifier returns true exactly for the
claim's rule applied to the *effective* message — the string message
when present, else the JSON serialization of the whole error — with the
JSON probe guarded by a leading `{` after trimming, and with every falsy
error (null, absent, 0, "", false) classified not rate-limited. -/
theorem C4_rate_limit_classifier_amended :
    ∀ e : Option Json, isQuotaError e = amendedRateLimited e := by
  intro e
  cases e with
  | none => rfl
  | some j =>
    simp only [isQuotaError, amendedRateLimited]
    cases ht : jsTruthy j <;> cases h1 : quotaStatus429 j <;>
      cases h2 : quotaSubstr (effectiveMsg j) <;>
      cases h3 : quotaJsonCond (effectiveMsg j) <;>
      simp [ht, h1, h2, h3]

/-- Claim C5: for an error whose message parses as JSON holding an
`error.details` list whose first guard-passing entry has `@type`
containing "RetryInfo" and `retryDelay` a decimal number followed by
"s", `parseRetryMs` returns that number of seconds in milliseconds
rounded up (`⌈seconds · 1000⌉`). -/
theorem C5_retry_delay_extraction (err : Json) (msg : String) (j : Json)
    (ds : List Json) (i : ℕ) (di : Json) (D : String)
    (hmsg : msgString (some err) = some msg)
    (hparse : jsonParse msg = some j)
    (hdet : jsGet (jsGet (some j) "error") "details" = some (Json.arr ds))
    (hget : ds.get? i = some di)
    (hskip : ∀ k, k < i → ∀ d, ds.get? k = some d → guardD d = .ok false)
    (hguard : guardD di = .ok true)
    (hdelay : jsGetJ di "retryDelay" = some (Json.str (D ++ "s")))
    (hD : isDecimalStr D = true) :
    parseRetryMs (some err) = ⌈decimalRat D * 1000⌉ := by
  obtain ⟨kvs, rfl⟩ := chain_get_obj j "error" "details" _ hdet
  have hbrace := jsTrim_brace_of_parse_obj msg kvs hparse
  have hloop : loopDetails ds = .ok (jsCeil (jsMul1000 (parseFloatDec D))) := by
    apply loopDetails_first ds i di D hget hskip hguard
    rw [show retryDelayOf di = Json.str (D ++ "s") from by
      unfold retryDelayOf; rw [hdelay]; rfl]
    rw [show jsToString (Json.str (D ++ "s")) = D ++ "s" from rfl]
    exact retryExec_decimal D hD
  rw [← ceil_parseFloat_1000 D]
  unfold parseRetryMs parseRetryBody
  simp only [hmsg, bind, Except.bind]
  rw [if_pos hbrace]
  simp only [hparse, pure, Except.pure]
  rw [hdet]
  simp only [jsTruthy, if_true]
  rw [hloop]

/-- Claim C5 witness: a message with `"retryDelay":"3.5s"` inside a
RetryInfo detail yields 3500 ms. -/
theorem C5_retry_delay_extraction_witness :
    parseRetryMs (some quotaErrW) = ⌈decimalRat "3.5" * 1000⌉ ∧
    parseRetryMs (some quotaErrW) = 3500 :=
  ⟨C5_retry_delay_extraction quotaErrW retryMsgW retryParsedW [retryDetailW] 0
      retryDetailW "3.5" rfl rfl rfl rfl
      (fun k hk => absurd hk (Nat.not_lt_zero k)) rfl rfl rfl,
    by decide⟩

/-- Claim C6: when the primary invocation fails with an error not
classified rate-limited, the resilient invoker propagates that error at
once — the trace holds the preferred target only and the fallback target
is never invoked. -/
theorem C6_non_rate_limit_no_fallback (backend : String → Except Json Json) (e : Json)
    (hfail : backend preferredModel = .error e)
    (hnq : isQuotaError (some e) = false) :
    (resilientInvoke backend).result = .error (.thrown e) ∧
    (resilientInvoke backend).trace = [preferredModel] ∧
    fallbackModel ∉ (resilientInvoke backend).trace := by
  refine ⟨?_, ?_, ?_⟩ <;> (simp [resilientInvoke, hfail, hnq]; try decide)

/-- Claim C6 witness: spec §8 scenario B, a 500-style failure. -/
theorem C6_non_rate_limit_no_fallback_witness :
    backend500 preferredModel = Except.error err500 ∧
    isQuotaError (some err500) = false ∧
    (resilientInvoke backend500).result = Except.error (JsErr.thrown err500) ∧
    fallbackModel ∉ (resilientInvoke backend500).trace :=
  ⟨rfl, rfl, (C6_non_rate_limit_no_fallback backend500 err500 rfl rfl).1,
    (C6_non_rate_limit_no_fallback backend500 err500 rfl rfl).2.2⟩

/-- Claim C7: every run of the resilient invoker performs at most two
backend invocations; either the trace is exactly the preferred target, or
it is the preferred target followed once by the fallback target — and the
latter happens only when the primary invocation failed with an error
classified rate-limited, with the suspension equal to the extracted
suggested delay (zero meaning no wait). -/
theorem C7_at_most_two_invocations (backend : String → Except Json Json) :
    (resilientInvoke backend).trace.length ≤ 2 ∧
    ((resilientInvoke backend).trace = [preferredModel] ∨
     ((resilientInvoke backend).trace = [preferredModel, fallbackModel] ∧
      ∃ e, backend preferredModel = .error e ∧ isQuotaError (some e) = true ∧
        (resilientInvoke backend).waitedMs = parseRetryMs (some e))) := by
  cases hb : backend preferredModel with
  | ok r => simp [resilientInvoke, hb]
  | error e =>
    cases hq : isQuotaError (some e) with
    | false => simp [resilientInvoke, hb, hq]
    | true =>
      cases hb2 : backend fallbackModel with
      | ok r =>
        refine ⟨?_, Or.inr ⟨?_, ⟨e, rfl, hq, ?_⟩⟩⟩ <;> simp [resilientInvoke, hb, hq, hb2]
      | error e2 =>
        refine ⟨?_, Or.inr ⟨?_, ⟨e, rfl, hq, ?_⟩⟩⟩ <;> simp [resilientInvoke, hb, hq, hb2]

/-- Claim C8: when the primary invocation fails rate-limited and the
fallback invocation also fails, the error surfaced is the second
(fallback) error, and the wait used was the delay extracted from the
first error. -/
theorem C8_fallback_error_propagated (backend : String → Except Json Json) (e1 e2 : Json)
    (h1 : backend preferredModel = .error e1)
    (hq : isQuotaError (some e1) = true)
    (h2 : backend fallbackModel = .error e2) :
    (resilientInvoke backend).result = .error (.thrown e2) ∧
    (resilientInvoke backend).waitedMs = parseRetryMs (some e1) := by
  simp [resilientInvoke, h1, hq, h2]

/-- Claim C8 witness: a 429 on the preferred target, a 500 on the
fallback — the 500 is surfaced. -/
theorem C8_fallback_error_propagated_witness :
    backendBoth preferredModel = Except.error err429 ∧
    isQuotaError (some err429) = true ∧
    backendBoth fallbackModel = Except.error err500 ∧
    (resilientInvoke backendBoth).result = Except.error (JsErr.thrown err500) :=
  ⟨rfl, rfl, rfl, (C8_fallback_error_propagated backendBoth err429 err500 rfl rfl rfl).1⟩

/-- Claim C9: every failure of the backend call, extraction, or JSON
parsing makes the enclosing generation operation fail (the cover-letter
and quiz pipelines surface their wrapped error rather than returning a
value), with the single exception of the optional improvement-tip call in
`saveQuizResult`, whose failure leaves the operation succeeding with a
null tip. -/
theorem C9_error_propagation :
    (∀ backend e, (resilientInvoke backend).result = .error e →
      generateCoverLetterM backend = .error (.errObj "Failed to generate cover letter")) ∧
    (∀ backend env e, (resilientInvoke backend).result = .ok env →
      extractText (some env) = .error e →
      generateCoverLetterM backend = .error (.errObj "Failed to generate cover letter")) ∧
    (∀ env e, extractText (some env) = .error e →
      generateQuizM (.ok env) = .error (.errObj "Failed to generate quiz questions")) ∧
    (∀ env t, extractText (some env) = .ok t →
      jsonParseL (jsTrimList (stripFencesQuiz t.data)) = none →
      generateQuizM (.ok env) = .error (.errObj "Failed to generate quiz questions")) ∧
    (∀ questions answers score tipRes,
      ((∃ te, tipRes = Except.error te) ∨
       (∃ env e, tipRes = Except.ok env ∧ extractText (some env) = .error e)) →
      ∃ a, saveQuizResultM questions answers score tipRes = .ok a ∧
        a.improvementTip = Json.null) := by
  refine ⟨?_, ?_, ?_, ?_, ?_⟩
  · intro backend e h
    simp [generateCoverLetterM, h]
  · intro backend env e h1 h2
    simp [generateCoverLetterM, h1, coverExtractStep, extractTextTrim, h2]
  · intro env e h
    simp [generateQuizM, h]
  · intro env t h1 h2
    simp [generateQuizM, h1, h2]
  · intro questions answers score tipRes htip
    rcases htip with ⟨te, rfl⟩ | ⟨env, e, rfl, hx⟩
    · refine ⟨_, rfl, ?_⟩
      by_cases hw :
        (List.filter (fun r => !r.isCorrect) (questionResults questions answers)).isEmpty
        <;> simp [hw]
    · refine ⟨_, rfl, ?_⟩
      by_cases hw :
        (List.filter (fun r => !r.isCorrect) (questionResults questions answers)).isEmpty
        <;> simp [hw, hx]

/-- Claim C9 witness: a malformed envelope makes `generateQuiz` fail with
its wrapped error (nothing is swallowed). -/
theorem C9_error_propagation_witness :
    extractText (some Json.null) = Except.error (JsErr.errObj "AI returned no text") ∧
    generateQuizM (.ok Json.null) =
      Except.error (JsErr.errObj "Failed to generate quiz questions") :=
  ⟨rfl, C9_error_propagation.2.2.1 Json.null _ rfl⟩

/-- Claim C10: `parseRetryMs` is total and swallows every internal
throw: its result is always a nonnegative integer, and it returns 0
whenever the error has no string message (covering null and absent
errors), whenever the message is not parseable JSON (the internal
`JSON.parse` error is caught), and whenever the parsed message lacks an
`error.details` field. -/
theorem C10_parse_retry_total :
    (∀ errO : Option Json, 0 ≤ parseRetryMs errO) ∧
    (∀ errO : Option Json, msgString errO = none → parseRetryMs errO = 0) ∧
    (∀ errO msg, msgString errO = some msg → jsonParse msg = none →
      parseRetryMs errO = 0) ∧
    (∀ errO msg j, msgString errO = some msg → jsonParse msg = some j →
      jsGet (jsGet (some j) "error") "details" = none → parseRetryMs errO = 0) :=
  ⟨parseRetryMs_nonneg, parseRetryMs_no_msg, parseRetryMs_bad_json,
    parseRetryMs_no_details⟩

/-- Claim C10 witness: a null error and a non-JSON message both yield
0. -/
theorem C10_parse_retry_total_witness :
    msgString (some Json.null) = none ∧
    parseRetryMs (some Json.null) = 0 ∧
    msgString (some (Json.obj [("message", Json.str "nope")])) = some "nope" ∧
    jsonParse "nope" = none ∧
    parseRetryMs (some (Json.obj [("message", Json.str "nope")])) = 0 :=
  ⟨rfl, C10_parse_retry_total.2.1 (some Json.null) rfl, rfl, rfl,
    C10_parse_retry_total.2.2.1 (some (Json.obj [("message", Json.str "nope")])) "nope" rfl rfl⟩
